import Mathlib

/-!
Verification development for the backdrop process supervisor
(`src/backdrop/daemon.py` and `src/backdrop/utils.py`).

The Python code is shallowly embedded: the OS process table, the on-disk
registry document and ghost event logs (registry writes, `subprocess.Popen`
launches, delivered signals) are carried in an explicit `World` state, and
each `DaemonManager` method becomes a pure function on that state.
-/

/-! ## Python `in` on strings (substring test) -/

/-- Check whether `needle` is an initial segment of `hay`
(the character-list version of Python string slicing `hay[:len(needle)] == needle`). -/
def listIsPre : List Char → List Char → Bool
  | [], _ => true
  | _ :: _, [] => false
  | a :: as, b :: bs => a = b && listIsPre as bs

/-- Check whether `needle` occurs contiguously inside `hay`
(Python `needle in hay` for strings). -/
def listHasSub (needle : List Char) : List Char → Bool
  | [] => listIsPre needle []
  | b :: bs => listIsPre needle (b :: bs) || listHasSub needle (b :: bs |>.tail)

/-- Python `needle in haystack` on strings. -/
def strContains (haystack needle : String) : Bool :=
  listHasSub needle.toList haystack.toList

/-! ## `datetime`: `isoformat` and `fromisoformat`

`datetime.datetime` values are modelled by their broken-down fields.
`isoformat` produces `YYYY-MM-DDTHH:MM:SS` plus `.ffffff` when the
microsecond field is nonzero; `fromisoformat` parses exactly that shape
(the shape `datetime.isoformat` emits), checking digits and field ranges. -/

structure DateTime where
  year : Nat
  month : Nat
  day : Nat
  hour : Nat
  minute : Nat
  second : Nat
  microsecond : Nat
deriving DecidableEq, Repr

/-- Invariants `datetime.datetime` enforces on its fields
(day-of-month is validated against the calendar in Python; the simple
upper bound 31 is all the round-trip needs). -/
def DateTime.Valid (d : DateTime) : Prop :=
  1 ≤ d.year ∧ d.year ≤ 9999 ∧ 1 ≤ d.month ∧ d.month ≤ 12 ∧ 1 ≤ d.day ∧ d.day ≤ 31 ∧
    d.hour ≤ 23 ∧ d.minute ≤ 59 ∧ d.second ≤ 59 ∧ d.microsecond ≤ 999999

instance (d : DateTime) : Decidable d.Valid := by
  unfold DateTime.Valid; infer_instance

def digitChr : Nat → Char
  | 0 => '0' | 1 => '1' | 2 => '2' | 3 => '3' | 4 => '4'
  | 5 => '5' | 6 => '6' | 7 => '7' | 8 => '8' | 9 => '9'
  | _ => '*'

def digitVal : Char → Nat
  | '0' => 0 | '1' => 1 | '2' => 2 | '3' => 3 | '4' => 4
  | '5' => 5 | '6' => 6 | '7' => 7 | '8' => 8 | '9' => 9
  | _ => 1000000

def isDigitC (c : Char) : Bool :=
  '0' ≤ c && c ≤ '9'

/-- Two-digit zero-padded decimal (`%02d` for values below 100). -/
def pad2 (n : Nat) : List Char := [digitChr (n / 10 % 10), digitChr (n % 10)]

/-- Four-digit zero-padded decimal (`%04d` for values below 10000). -/
def pad4 (n : Nat) : List Char :=
  [digitChr (n / 1000 % 10), digitChr (n / 100 % 10), digitChr (n / 10 % 10), digitChr (n % 10)]

/-- Six-digit zero-padded decimal (`%06d` for values below 1000000). -/
def pad6 (n : Nat) : List Char :=
  [digitChr (n / 100000 % 10), digitChr (n / 10000 % 10), digitChr (n / 1000 % 10),
   digitChr (n / 100 % 10), digitChr (n / 10 % 10), digitChr (n % 10)]

/-- The fractional part `isoformat` appends: nothing when microsecond is 0. -/
def isoFrac (us : Nat) : List Char :=
  if us = 0 then [] else '.' :: pad6 us

def isoChars (d : DateTime) : List Char :=
  pad4 d.year ++ '-' :: (pad2 d.month ++ '-' :: (pad2 d.day ++ 'T' ::
    (pad2 d.hour ++ ':' :: (pad2 d.minute ++ ':' :: (pad2 d.second ++ isoFrac d.microsecond)))))

/-- `datetime.isoformat()`. -/
def DateTime.isoformat (d : DateTime) : String := String.mk (isoChars d)

/-- Consume two decimal digits. -/
def parse2 : List Char → Option (Nat × List Char)
  | a :: b :: rest =>
      if isDigitC a && isDigitC b then some (10 * digitVal a + digitVal b, rest) else none
  | _ => none

/-- Consume four decimal digits. -/
def parse4 : List Char → Option (Nat × List Char)
  | a :: b :: c :: d :: rest =>
      if isDigitC a && isDigitC b && isDigitC c && isDigitC d then
        some (1000 * digitVal a + 100 * digitVal b + 10 * digitVal c + digitVal d, rest)
      else none
  | _ => none

/-- Consume one expected separator character. -/
def expectC (c : Char) : List Char → Option (List Char)
  | a :: rest => if a = c then some rest else none
  | _ => none

/-- Consume the optional trailing `.ffffff` microsecond part. -/
def parseFrac : List Char → Option Nat
  | [] => some 0
  | '.' :: a :: b :: c :: d :: e :: f :: [] =>
      if isDigitC a && isDigitC b && isDigitC c && isDigitC d && isDigitC e && isDigitC f then
        some (100000 * digitVal a + 10000 * digitVal b + 1000 * digitVal c +
              100 * digitVal d + 10 * digitVal e + digitVal f)
      else none
  | _ => none

/-- `datetime.fromisoformat` on the strings `isoformat` emits;
`none` models the `ValueError` Python raises on malformed input. -/
def DateTime.fromisoformat (s : String) : Option DateTime := do
  let (y, r1) ← parse4 s.toList
  let r2 ← expectC '-' r1
  let (mo, r3) ← parse2 r2
  let r4 ← expectC '-' r3
  let (d, r5) ← parse2 r4
  let r6 ← expectC 'T' r5
  let (h, r7) ← parse2 r6
  let r8 ← expectC ':' r7
  let (mi, r9) ← parse2 r8
  let r10 ← expectC ':' r9
  let (se, r11) ← parse2 r10
  let us ← parseFrac r11
  let dt : DateTime := ⟨y, mo, d, h, mi, se, us⟩
  if dt.Valid then some dt else none

/-! ## OS process table

One entry per live process. `cmdline` is the argument vector psutil
reports; `ignoresTerm` says the process catches/ignores SIGTERM;
`denied` says signalling it raises `psutil.AccessDenied`
(on Linux `/proc/<pid>/cmdline` stays world-readable, so reading the
command line still succeeds for such a process); `parent` is the parent
pid, giving psutil's `children(recursive=True)` tree. -/

structure OsProc where
  cmdline : List String
  ignoresTerm : Bool
  denied : Bool
  parent : Option Nat
deriving DecidableEq, Repr

/-- The OS process table: pid-keyed association list. -/
abbrev OsTable := List (Nat × OsProc)

def lookupPid (tbl : OsTable) (p : Nat) : Option OsProc :=
  (tbl.find? (fun e => e.1 == p)).map (·.2)

/-- Effect of a delivered SIGKILL (and of an effective SIGTERM): the pid
disappears from the table. -/
def erasePid (tbl : OsTable) (p : Nat) : OsTable :=
  tbl.filter (fun e => ¬ e.1 = p)

/-! ## `ServerProcess` (daemon.py) -/

structure ServerProcess where
  name : String
  command : List String
  pid : Option Nat
  started_at : DateTime
  log_file : Option String
  error_log_file : Option String
  cwd : String
deriving DecidableEq, Repr

/-- Python truthiness of an optional string: `None` and `""` are falsy. -/
def pyOrStr (o : Option String) (dflt : String) : String :=
  match o with
  | none => dflt
  | some c => if c = "" then dflt else c

/-- `ServerProcess.__init__`: `started_at or datetime.now()` (a datetime is
never falsy, so only `None` falls back) and `cwd or os.getcwd()`. -/
def ServerProcess.init (name : String) (command : List String) (pid : Option Nat)
    (started_at : Option DateTime) (log_file error_log_file : Option String)
    (cwd : Option String) (now : DateTime) (curDir : String) : ServerProcess :=
  { name := name, command := command, pid := pid,
    started_at := started_at.getD now,
    log_file := log_file, error_log_file := error_log_file,
    cwd := pyOrStr cwd curDir }

/-- The dictionary `to_dict` stores (one JSON object of `servers.json`). -/
structure StoredDict where
  name : String
  command : List String
  pid : Option Nat
  started_at : String
  log_file : Option String
  error_log_file : Option String
  cwd : Option String
deriving DecidableEq, Repr

/-- `ServerProcess.to_dict`. -/
def ServerProcess.to_dict (s : ServerProcess) : StoredDict :=
  { name := s.name, command := s.command, pid := s.pid,
    started_at := s.started_at.isoformat,
    log_file := s.log_file, error_log_file := s.error_log_file,
    cwd := some s.cwd }

/-- `ServerProcess.from_dict`: parse `started_at`, then call the constructor
with every stored field; `none` models the `ValueError` a malformed
timestamp raises. -/
def ServerProcess.from_dict (d : StoredDict) (now : DateTime) (curDir : String) :
    Option ServerProcess :=
  (DateTime.fromisoformat d.started_at).map fun dt =>
    ServerProcess.init d.name d.command d.pid (some dt) d.log_file d.error_log_file
      d.cwd now curDir

/-- `" ".join(cmdline)`. -/
def joinSpace (parts : List String) : String := String.intercalate " " parts

/-- `ServerProcess.is_running` against an OS table: Python `not self.pid`
is true for `None` and for `0`; then psutil is asked for the process and
its command line, and identity is checked by
`any(part in " ".join(cmdline) for part in self.command)`. -/
def ServerProcess.is_running (s : ServerProcess) (os : OsTable) : Bool :=
  match s.pid with
  | none => false
  | some p =>
    if p = 0 then false
    else
      match lookupPid os p with
      | none => false
      | some proc =>
          decide (0 < proc.cmdline.length) &&
            s.command.any (fun part => strContains (joinSpace proc.cmdline) part)

/-! ## Registry and world state

`World` carries the persisted `servers.json` document (`none` = the file
does not exist), the OS process table, and ghost event logs: `writes`
counts `_save_state` calls, `launches` records every `subprocess.Popen`,
`sigs` records every delivered signal as `(pid, isKill)`. -/

abbrev Registry := List (String × ServerProcess)

def lookupA (l : Registry) (k : String) : Option ServerProcess :=
  (l.find? (fun e => e.1 == k)).map (·.2)

/-- Python `del servers[name]`. -/
def eraseA (l : Registry) (k : String) : Registry :=
  l.filter (fun e => ¬ e.1 = k)

/-- Python `servers[name] = server`: replace in place, else append. -/
def setA (l : Registry) (k : String) (v : ServerProcess) : Registry :=
  if (l.find? (fun e => e.1 == k)).isSome then
    l.map (fun e => if e.1 = k then (k, v) else e)
  else l ++ [(k, v)]

structure World where
  stateFile : Option (List (String × StoredDict))
  os : OsTable
  writes : Nat
  launches : List (Nat × List String)
  sigs : List (Nat × Bool)
deriving DecidableEq, Repr

/-- Parse every stored entry; any failure aborts the whole load
(it raises inside the dict comprehension in `_load_state`). -/
def parseAll (doc : List (String × StoredDict)) (now : DateTime) (curDir : String) :
    Option Registry :=
  doc.mapM fun e => (ServerProcess.from_dict e.2 now curDir).map fun s => (e.1, s)

/-- `DaemonManager._load_state`: a missing file or any exception yields `{}`. -/
def loadState (w : World) (now : DateTime) (curDir : String) : Registry :=
  match w.stateFile with
  | none => []
  | some doc =>
    match parseAll doc now curDir with
    | some m => m
    | none => []

/-- `DaemonManager._save_state`: serialize the full mapping and overwrite
the state file. -/
def saveState (w : World) (servers : Registry) : World :=
  { w with stateFile := some (servers.map fun e => (e.1, e.2.to_dict)),
           writes := w.writes + 1 }

/-- `DaemonManager._clean_dead_processes`: load, keep live entries, and
save only when the count changed. -/
def cleanDead (w : World) (now : DateTime) (curDir : String) : World :=
  let servers := loadState w now curDir
  let alive := servers.filter fun e => e.2.is_running w.os
  if alive.length ≠ servers.length then saveState w alive else w

/-! ## `DaemonManager.stop`

`psutil.Process.terminate` / `.kill` on a `denied` process raise
`psutil.AccessDenied`, caught by the `except Exception` block; the wait
loop polls `is_running` after the SIGTERM takes (or fails to take)
effect. -/

def accessDeniedMsg (p : Nat) : String :=
  "psutil.AccessDenied (pid=" ++ Nat.repr p ++ ")"

def noSuchProcessMsg (p : Nat) : String :=
  "psutil.NoSuchProcess (pid=" ++ Nat.repr p ++ ")"

def DaemonManager.stop (w : World) (name : String) (force : Bool)
    (now : DateTime) (curDir : String) : World × Bool × String :=
  let servers := loadState w now curDir
  match lookupA servers name with
  | none => (w, false, "Server '" ++ name ++ "' not found")
  | some server =>
    if server.is_running w.os = false then
      (saveState w (eraseA servers name), true,
        "Server '" ++ name ++ "' is not running (cleaned up state)")
    else
      let p := server.pid.getD 0
      match lookupPid w.os p with
      | none =>
        -- `psutil.Process(pid)` raised NoSuchProcess inside the try block
        (w, false, "Failed to stop server: " ++ noSuchProcessMsg p)
      | some proc =>
        if proc.denied then
          -- the first signal sent (SIGTERM, or SIGKILL under force) raises
          (w, false, "Failed to stop server: " ++ accessDeniedMsg p)
        else
          let graceful : OsTable × List (Nat × Bool) :=
            if force then (w.os, w.sigs)
            else ((if proc.ignoresTerm then w.os else erasePid w.os p),
                  w.sigs ++ [(p, false)])
          -- the 10 x 1s wait loop re-checks `is_running`
          let afterWait : OsTable × List (Nat × Bool) :=
            if server.is_running graceful.1 then
              (erasePid graceful.1 p, graceful.2 ++ [(p, true)])
            else graceful
          let w2 := { w with os := afterWait.1, sigs := afterWait.2 }
          (saveState w2 (eraseA servers name), true, "Stopped " ++ name)

/-! ## Path helpers (`os.path.basename`, `pathlib.Path.stem`) -/

/-- `os.path.basename` (posix): everything after the last `/`. -/
def pyBasenameChars (l : List Char) : List Char :=
  ((l.reverse.takeWhile (fun c => ¬ c = '/')).reverse)

/-- `pathlib.PurePath.stem` on a bare file name:
`i = name.rfind('.'); name[:i] if 0 < i < len(name) - 1 else name`. -/
def stemChars (l : List Char) : List Char :=
  match l.reverse.findIdx? (fun c => c = '.') with
  | none => l
  | some j =>
    let i := l.length - 1 - j
    if 0 < i ∧ i < l.length - 1 then l.take i else l

/-- `Path(s).stem`: the stem of the final path component. -/
def pathStem (s : String) : String :=
  String.mk (stemChars (pyBasenameChars s.toList))

/-! ## `DaemonManager.start`

The nondeterministic environment of one `start` call is passed in
explicitly: `newPid` is the pid `subprocess.Popen` hands back (`none`
models `Popen` raising, e.g. `FileNotFoundError`, with message `excMsg`),
and `osAfter` is the OS table once the 0.5s verification sleep has
elapsed.  `none` as the overall result models the uncaught `IndexError`
of `command[0]` on an empty command (it is raised before the try block). -/

/-- Name resolution at the top of `start`: `if not name` (`None` or `""`)
derive `Path(command[0]).stem`. -/
def startName (name? : Option String) (command : List String) : Option String :=
  match name? with
  | some n => if n = "" then (command.head?).map pathStem else some n
  | none => (command.head?).map pathStem

def optPidRepr : Option Nat → String
  | none => "None"
  | some k => Nat.repr k

/-- The body of `start` past the collision check: open logs, `Popen`,
record provisionally, save, sleep, verify, and roll back on early exit. -/
def startLaunch (w1 : World) (logDir : String) (command : List String) (name : String)
    (cwd? : Option String) (servers : Registry) (newPid : Option Nat) (excMsg : String)
    (osAfter : OsTable) (now : DateTime) (curDir : String) : World × Bool × String :=
  let error_log_file := logDir ++ "/" ++ name ++ "_error.log"
  match newPid with
  | none => (w1, false, "Failed to start server: " ++ excMsg)
  | some p =>
    let w2 := { w1 with launches := w1.launches ++ [(p, command)] }
    let server := ServerProcess.init name command (some p) (some now)
      (some (logDir ++ "/" ++ name ++ ".log")) (some error_log_file)
      (some (pyOrStr cwd? curDir)) now curDir
    let servers2 := setA servers name server
    let w3 := saveState w2 servers2
    -- time.sleep(0.5): the world advances to `osAfter` before verification
    let w4 := { w3 with os := osAfter }
    if server.is_running osAfter then
      (w4, true, "Started " ++ name ++ " (PID: " ++ Nat.repr p ++ ")")
    else
      (saveState w4 (eraseA servers2 name), false,
        "Process started but immediately exited. Check " ++ error_log_file)

def DaemonManager.start (w : World) (logDir : String) (command : List String)
    (name? : Option String) (cwd? : Option String) (newPid : Option Nat) (excMsg : String)
    (osAfter : OsTable) (now : DateTime) (curDir : String) :
    Option (World × Bool × String) :=
  let w1 := cleanDead w now curDir
  match startName name? command with
  | none => none
  | some name =>
    let servers := loadState w1 now curDir
    match lookupA servers name with
    | some srv =>
      if srv.is_running w1.os then
        some (w1, false,
          "Server '" ++ name ++ "' is already running (PID: " ++ optPidRepr srv.pid ++ ")")
      else some (startLaunch w1 logDir command name cwd? servers newPid excMsg osAfter now curDir)
    | none =>
      some (startLaunch w1 logDir command name cwd? servers newPid excMsg osAfter now curDir)

/-- `DaemonManager.restart`: look up, stop, bail out unless the stop
succeeded or its message mentions "not running", sleep, start again with
the recorded command and cwd. -/
def DaemonManager.restart (w : World) (logDir : String) (name : String)
    (newPid : Option Nat) (excMsg : String) (osAfter : OsTable)
    (now : DateTime) (curDir : String) : Option (World × Bool × String) :=
  let servers := loadState w now curDir
  match lookupA servers name with
  | none => some (w, false, "Server '" ++ name ++ "' not found")
  | some server =>
    let stopRes := DaemonManager.stop w name false now curDir
    if stopRes.2.1 = false ∧ strContains stopRes.2.2 "not running" = false then
      some (stopRes.1, false, "Failed to stop server: " ++ stopRes.2.2)
    else
      -- time.sleep(1)
      DaemonManager.start stopRes.1 logDir server.command (some name) (some server.cwd)
        newPid excMsg osAfter now curDir

/-! ## `sanitize_name` (utils.py) -/

/-- The whitespace class of Python `str.split()` with no argument. -/
def isPySpace (c : Char) : Bool :=
  c = ' ' || c = '\t' || c = '\n' || c = '\x0d' || c = '\x0b' || c = '\x0c'

/-- `str.split()`: split on whitespace runs, dropping empty pieces. -/
def pySplitGo : List Char → List Char → List (List Char)
  | acc, [] => if acc.isEmpty then [] else [acc.reverse]
  | acc, c :: cs =>
    if isPySpace c then
      if acc.isEmpty then pySplitGo [] cs else acc.reverse :: pySplitGo [] cs
    else pySplitGo (c :: acc) cs

def pySplit (l : List Char) : List (List Char) := pySplitGo [] l

/-- The `safe_chars` set of `sanitize_name`. -/
def safeChars : List Char :=
  "abcdefghijklmnopqrstuvwxyzABCDEFGHIJKLMNOPQRSTUVWXYZ0123456789-_".toList

/-- The final comprehension: keep safe characters, replace the rest by `_`. -/
def sanitizeMap (l : List Char) : List Char :=
  l.map (fun c => if safeChars.contains c then c else '_')

/-- `name.endswith((".py", ".js", ".rb", ".sh"))`. -/
def endsWithExt (l : List Char) : Bool :=
  listIsPre ['y', 'p', '.'] l.reverse || listIsPre ['s', 'j', '.'] l.reverse ||
    listIsPre ['b', 'r', '.'] l.reverse || listIsPre ['h', 's', '.'] l.reverse

/-- `sanitize_name`.  The result is `none` exactly when the Python
function raises: `parts[0]` on an input that contains a space but whose
`split()` is empty (all-whitespace input) is an uncaught `IndexError`. -/
def sanitize_name (s : String) : Option String :=
  let l := s.toList
  let step1 : Option (List Char) :=
    if l.contains ' ' then
      let parts := pySplit l
      match parts.find? (fun p => ¬ p.contains '=' && ¬ p.head? = some '-') with
      | some p => some p
      | none => parts.head?
    else some l
  step1.map fun name1 =>
    let name2 := pyBasenameChars name1
    let name3 := if endsWithExt name2 then stemChars name2 else name2
    String.mk (sanitizeMap name3)

/-! ## `kill_process_tree` (utils.py)

State during a tree kill: the OS table plus the log of signals this call
delivered.  Exceptions that escape the helper (`psutil.AccessDenied`, and
`psutil.NoSuchProcess` where not suppressed) are an `Except.error`
carrying the side effects already applied when the exception fired. -/

abbrev TreeState := OsTable × List (Nat × Bool)

/-- Direct children of `p` in the table. -/
def childPids (tbl : OsTable) (p : Nat) : List Nat :=
  (tbl.filter (fun e => e.2.parent = some p)).map (·.1)

/-- Breadth-first descendant collection, fuelled by the table size
(a process tree on `n` entries has depth at most `n`). -/
def descendantsGo (tbl : OsTable) : Nat → List Nat → List Nat
  | 0, _ => []
  | fuel + 1, frontier =>
    let next := frontier.foldr (fun q acc => childPids tbl q ++ acc) []
    next ++ descendantsGo tbl fuel next

/-- `parent.children(recursive=True)` (the root itself excluded). -/
def descendants (tbl : OsTable) (p : Nat) : List Nat :=
  descendantsGo tbl tbl.length [p]

/-- `child.terminate()` under `contextlib.suppress(psutil.NoSuchProcess)`. -/
def termSuppress (st : TreeState) (q : Nat) : Except TreeState TreeState :=
  match lookupPid st.1 q with
  | none => .ok st
  | some proc =>
    if proc.denied then .error st
    else .ok (if proc.ignoresTerm then st.1 else erasePid st.1 q, st.2 ++ [(q, false)])

def termAll (st : TreeState) : List Nat → Except TreeState TreeState
  | [] => .ok st
  | q :: qs =>
    match termSuppress st q with
    | .error st2 => .error st2
    | .ok st2 => termAll st2 qs

/-- `parent.terminate()`: `psutil.NoSuchProcess` is not suppressed here. -/
def termRoot (st : TreeState) (q : Nat) : Except TreeState TreeState :=
  match lookupPid st.1 q with
  | none => .error st
  | some proc =>
    if proc.denied then .error st
    else .ok (if proc.ignoresTerm then st.1 else erasePid st.1 q, st.2 ++ [(q, false)])

/-- `proc.kill()` under `contextlib.suppress(psutil.NoSuchProcess)`. -/
def killSuppress (st : TreeState) (q : Nat) : Except TreeState TreeState :=
  match lookupPid st.1 q with
  | none => .ok st
  | some proc =>
    if proc.denied then .error st
    else .ok (erasePid st.1 q, st.2 ++ [(q, true)])

def killAll (st : TreeState) : List Nat → Except TreeState TreeState
  | [] => .ok st
  | q :: qs =>
    match killSuppress st q with
    | .error st2 => .error st2
    | .ok st2 => killAll st2 qs

/-- `kill_process_tree(pid, timeout)`: snapshot the descendants, SIGTERM
children then root, wait up to `timeout` for the set to exit
(`psutil.wait_procs`), SIGKILL the survivors.  Returns the final table,
the delivered signals, and the boolean result. -/
def kill_process_tree (tbl : OsTable) (pid : Nat) (_timeout : Nat) :
    OsTable × List (Nat × Bool) × Bool :=
  match lookupPid tbl pid with
  | none => (tbl, [], false)
  | some _ =>
    let children := descendants tbl pid
    match termAll (tbl, []) children with
    | .error st => (st.1, st.2, false)
    | .ok st =>
      match termRoot st pid with
      | .error st2 => (st2.1, st2.2, false)
      | .ok st2 =>
        -- wait_procs: after the timeout, `alive` is what is still in the table
        let alive := (children ++ [pid]).filter (fun q => (lookupPid st2.1 q).isSome)
        match killAll st2 alive with
        | .error st3 => (st3.1, st3.2, false)
        | .ok st3 => (st3.1, st3.2, true)

/-! ## Association-list lemmas -/

theorem lookupA_eq_none {l : Registry} {k : String} (h : ∀ e ∈ l, e.1 ≠ k) :
    lookupA l k = none := by
  unfold lookupA
  rw [List.find?_eq_none.mpr]
  · rfl
  · intro e he
    simpa using h e he

theorem lookupPid_mem {tbl : OsTable} {q : Nat} {proc : OsProc}
    (h : lookupPid tbl q = some proc) : (q, proc) ∈ tbl := by
  unfold lookupPid at h
  rcases Option.map_eq_some'.mp h with ⟨e, he, hev⟩
  have hp := List.find?_some he
  have hm := List.mem_of_find?_eq_some he
  simp only [beq_iff_eq] at hp
  obtain ⟨e1, e2⟩ := e
  simp only at hp hev
  subst hp; subst hev; exact hm

theorem lookupPid_isSome_of_mem {tbl : OsTable} {q : Nat} {proc : OsProc}
    (h : (q, proc) ∈ tbl) : (lookupPid tbl q).isSome := by
  unfold lookupPid
  have h2 : (tbl.find? (fun e => e.1 == q)).isSome :=
    List.find?_isSome.mpr ⟨(q, proc), h, by simp⟩
  cases hf : tbl.find? (fun e => e.1 == q) with
  | none => rw [hf] at h2; simp at h2
  | some e => simp [hf]

theorem lookupPid_none_of_sub {a b : OsTable} {q : Nat}
    (hsub : ∀ e ∈ a, e ∈ b) (h : lookupPid b q = none) : lookupPid a q = none := by
  cases ha : lookupPid a q with
  | none => rfl
  | some proc =>
    have := lookupPid_isSome_of_mem (hsub _ (lookupPid_mem ha))
    rw [h] at this
    simp at this

theorem erasePid_sub {tbl : OsTable} {p : Nat} : ∀ e ∈ erasePid tbl p, e ∈ tbl := by
  intro e he
  exact (List.mem_filter.mp he).1

theorem lookupPid_erase_self (tbl : OsTable) (p : Nat) :
    lookupPid (erasePid tbl p) p = none := by
  unfold lookupPid erasePid
  rw [List.find?_eq_none.mpr]
  · rfl
  · intro e he
    have := (List.mem_filter.mp he).2
    simp only [decide_not, Bool.not_eq_true', decide_eq_false_iff_not] at this
    simp [this]

theorem lookupPid_erase_ne (tbl : OsTable) {p q : Nat} (h : q ≠ p) :
    lookupPid (erasePid tbl p) q = lookupPid tbl q := by
  unfold lookupPid erasePid
  induction tbl with
  | nil => rfl
  | cons e t ih =>
    by_cases hq : e.1 = q
    · have hep : ¬ e.1 = p := by rw [hq]; exact h
      rw [List.filter_cons_of_pos (by simpa using hep)]
      rw [List.find?_cons_of_pos _ (by simpa using hq),
        List.find?_cons_of_pos _ (by simpa using hq)]
    · by_cases hep : e.1 = p
      · rw [List.filter_cons_of_neg (by simpa using hep)]
        rw [List.find?_cons_of_neg _ (by simpa using hq)]
        exact ih
      · rw [List.filter_cons_of_pos (by simpa using hep)]
        rw [List.find?_cons_of_neg _ (by simpa using hq),
          List.find?_cons_of_neg _ (by simpa using hq)]
        exact ih

/-! ## World bookkeeping lemmas -/

theorem saveState_launches (w : World) (regs : Registry) :
    (saveState w regs).launches = w.launches := rfl

theorem cleanDead_launches (w : World) (now : DateTime) (curDir : String) :
    (cleanDead w now curDir).launches = w.launches := by
  unfold cleanDead
  by_cases h : ((loadState w now curDir).filter fun e => e.2.is_running w.os).length ≠
      (loadState w now curDir).length
  · rw [if_pos h]; rfl
  · rw [if_neg h]

theorem cleanDead_os (w : World) (now : DateTime) (curDir : String) :
    (cleanDead w now curDir).os = w.os := by
  unfold cleanDead
  by_cases h : ((loadState w now curDir).filter fun e => e.2.is_running w.os).length ≠
      (loadState w now curDir).length
  · rw [if_pos h]; rfl
  · rw [if_neg h]

theorem stop_launches (w : World) (name : String) (force : Bool)
    (now : DateTime) (curDir : String) :
    (DaemonManager.stop w name force now curDir).1.launches = w.launches := by
  simp only [DaemonManager.stop]
  cases hl : lookupA (loadState w now curDir) name with
  | none => rfl
  | some server =>
    dsimp only
    by_cases h : server.is_running w.os = false
    · rw [if_pos h]; rfl
    · rw [if_neg h]
      cases lookupPid w.os (server.pid.getD 0) with
      | none => rfl
      | some proc =>
        dsimp only
        by_cases hd : proc.denied = true
        · rw [if_pos hd]
        · rw [if_neg hd]; rfl

/-- Keys survive parsing: every parsed entry's name comes from the stored
document unchanged. -/
theorem parseAll_keyMem {doc : List (String × StoredDict)} {now : DateTime}
    {curDir : String} {m : Registry} (hp : parseAll doc now curDir = some m) :
    ∀ e ∈ m, ∃ d ∈ doc, e.1 = d.1 := by
  induction doc generalizing m with
  | nil =>
    unfold parseAll at hp
    simp only [List.mapM_nil, pure, Option.some.injEq] at hp
    subst hp
    intro e he
    simp at he
  | cons d ds ih =>
    unfold parseAll at hp ih
    rw [List.mapM_cons] at hp
    cases hd : (ServerProcess.from_dict d.2 now curDir).map fun s => (d.1, s) with
    | none => rw [hd] at hp; simp at hp
    | some b =>
      rw [hd] at hp
      cases hds : ds.mapM fun e => (ServerProcess.from_dict e.2 now curDir).map
          fun s => (e.1, s) with
      | none => rw [hds] at hp; simp at hp
      | some bs =>
        rw [hds] at hp
        simp at hp
        rcases Option.map_eq_some'.mp hd with ⟨s, _, hbv⟩
        intro e he
        rw [← hp] at he
        rcases List.mem_cons.mp he with h1 | h2
        · exact ⟨d, List.mem_cons_self d ds, by rw [h1, ← hbv]⟩
        · rcases ih hds e h2 with ⟨d0, hd0, hk⟩
          exact ⟨d0, List.mem_cons_of_mem d hd0, hk⟩

/-- After saving a mapping whose keys avoid `n`, loading finds nothing
under `n` (whether or not the reload parses). -/
theorem lookupA_loadState_save_none (w : World) (regs : Registry) (n : String)
    (now : DateTime) (curDir : String) (h : ∀ e ∈ regs, e.1 ≠ n) :
    lookupA (loadState (saveState w regs) now curDir) n = none := by
  unfold loadState saveState
  simp only
  cases hp : parseAll (regs.map fun e => (e.1, e.2.to_dict)) now curDir with
  | none => rfl
  | some m =>
    apply lookupA_eq_none
    intro e he
    rcases parseAll_keyMem hp e he with ⟨d, hd, hk⟩
    rcases List.mem_map.mp hd with ⟨e0, he0, hde⟩
    rw [hk, ← hde]
    exact h e0 he0

theorem eraseA_keys (l : Registry) (n : String) : ∀ e ∈ eraseA l n, e.1 ≠ n := by
  intro e he
  have := (List.mem_filter.mp he).2
  simpa using this

/-! ## Claim C8: name derivation for "PORT=8080 node server.js" -/

/-- C8 counterexample: the claim says the derivation yields `"server"`;
on the code it does not — the first token that is neither a `KEY=value`
assignment nor a `-` flag is `"node"`, and it is taken as-is, so the
result is `"node"`, not `"server"`. -/
theorem C8_counterexample : ¬ sanitize_name "PORT=8080 node server.js" = some "server" := by
  decide

/-- C8 (amended): name derivation for the raw command
`"PORT=8080 node server.js"` yields `"node"`: the environment-variable
assignment token is skipped and the first qualifying token is taken; the
interpreter token is not skipped, so the script basename `"server"` is
never reached. -/
theorem C8_name_derivation : sanitize_name "PORT=8080 node server.js" = some "node" := by
  decide

/-! ## Claim C1: `is_running` demands OS existence plus command-line match -/

/-- C1: with a non-null pid, `is_running` is true only if the OS table has
a process at that pid whose (nonempty) command line is consistent with the
record's command — some recorded command part occurs inside the joined
command line (the identity check the code performs); and if a pid has
been reused by a process matching no part of the recorded command,
`is_running` is false even though the OS reports a process at that pid. -/
theorem C1_is_running_identity :
    (∀ (s : ServerProcess) (os : OsTable), s.is_running os = true →
      ∃ p proc, s.pid = some p ∧ lookupPid os p = some proc ∧ 0 < proc.cmdline.length ∧
        s.command.any (fun part => strContains (joinSpace proc.cmdline) part) = true) ∧
    (∀ (s : ServerProcess) (os : OsTable) (p : Nat) (proc : OsProc),
      s.pid = some p → lookupPid os p = some proc →
      s.command.any (fun part => strContains (joinSpace proc.cmdline) part) = false →
      s.is_running os = false) := by
  constructor
  · intro s os h
    unfold ServerProcess.is_running at h
    cases hp : s.pid with
    | none => rw [hp] at h; exact absurd h (by simp)
    | some p =>
      rw [hp] at h
      dsimp only at h
      by_cases h0 : p = 0
      · rw [if_pos h0] at h; exact absurd h (by simp)
      · rw [if_neg h0] at h
        cases hl : lookupPid os p with
        | none => rw [hl] at h; exact absurd h (by simp)
        | some proc =>
          rw [hl] at h
          simp only [Bool.and_eq_true, decide_eq_true_eq] at h
          exact ⟨p, proc, rfl, hl, h.1, h.2⟩
  · intro s os p proc hp hl hmiss
    unfold ServerProcess.is_running
    rw [hp]
    dsimp only
    by_cases h0 : p = 0
    · rw [if_pos h0]
    · rw [if_neg h0, hl]
      simp [hmiss]

/-- C1 witness: pid 5 was recorded for `["sleep", "100"]`; the OS now has
an unrelated `vim` at pid 5, so `is_running` is false (PID-reuse safety),
while the matching table makes it true with the identity facts exposed. -/
theorem C1_is_running_identity_witness :
    (⟨"s1", ["sleep", "100"], some 5, ⟨2024, 1, 2, 3, 4, 5, 0⟩, none, none,
        "/"⟩ : ServerProcess).is_running [(5, ⟨["vim"], false, false, none⟩)] = false :=
  C1_is_running_identity.2
    ⟨"s1", ["sleep", "100"], some 5, ⟨2024, 1, 2, 3, 4, 5, 0⟩, none, none, "/"⟩
    [(5, ⟨["vim"], false, false, none⟩)] 5 ⟨["vim"], false, false, none⟩
    rfl rfl (by decide)

/-! ## Claim C10: reconciliation does not rewrite an all-live registry -/

/-- C10: when every loaded record passes the liveness check,
`_clean_dead_processes` performs no write at all: the resulting world —
state file bytes, write counter, everything — is the input world. -/
theorem C10_clean_no_write (w : World) (now : DateTime) (curDir : String)
    (h : ∀ e ∈ loadState w now curDir, e.2.is_running w.os = true) :
    cleanDead w now curDir = w := by
  simp only [cleanDead]
  have hf : (loadState w now curDir).filter (fun e => e.2.is_running w.os) =
      loadState w now curDir :=
    List.filter_eq_self.mpr h
  rw [hf]
  simp

/-- C10 witness: a one-entry registry whose process is alive is left
untouched by reconciliation. -/
theorem C10_clean_no_write_witness :
    (∀ e ∈ loadState
        ⟨some [("s1", ⟨"s1", ["sleep", "100"], some 5, "2024-01-02T03:04:05",
            none, none, some "/"⟩)],
          [(5, ⟨["sleep", "100"], false, false, none⟩)], 0, [], []⟩
        ⟨2024, 1, 2, 3, 4, 6, 0⟩ "/",
      e.2.is_running [(5, ⟨["sleep", "100"], false, false, none⟩)] = true) ∧
    cleanDead
        ⟨some [("s1", ⟨"s1", ["sleep", "100"], some 5, "2024-01-02T03:04:05",
            none, none, some "/"⟩)],
          [(5, ⟨["sleep", "100"], false, false, none⟩)], 0, [], []⟩
        ⟨2024, 1, 2, 3, 4, 6, 0⟩ "/" =
      ⟨some [("s1", ⟨"s1", ["sleep", "100"], some 5, "2024-01-02T03:04:05",
          none, none, some "/"⟩)],
        [(5, ⟨["sleep", "100"], false, false, none⟩)], 0, [], []⟩ :=
  ⟨by decide, C10_clean_no_write _ _ _ (by decide)⟩

/-! ## Claim C7: `to_dict` / `from_dict` round-trip -/

theorem digitVal_digitChr {k : Nat} (hk : k < 10) : digitVal (digitChr k) = k := by
  interval_cases k <;> rfl

theorem isDigitC_digitChr {k : Nat} (hk : k < 10) : isDigitC (digitChr k) = true := by
  interval_cases k <;> rfl

theorem parse2_pad2 {n : Nat} (hn : n < 100) (r : List Char) :
    parse2 (pad2 n ++ r) = some (n, r) := by
  have h1 : n / 10 % 10 < 10 := Nat.mod_lt _ (by omega)
  have h2 : n % 10 < 10 := Nat.mod_lt _ (by omega)
  simp only [pad2, List.cons_append, List.nil_append, parse2,
    isDigitC_digitChr h1, isDigitC_digitChr h2, Bool.and_self, if_true,
    digitVal_digitChr h1, digitVal_digitChr h2]
  have : 10 * (n / 10 % 10) + n % 10 = n := by omega
  rw [this]

theorem parse4_pad4 {n : Nat} (hn : n < 10000) (r : List Char) :
    parse4 (pad4 n ++ r) = some (n, r) := by
  have h1 : n / 1000 % 10 < 10 := Nat.mod_lt _ (by omega)
  have h2 : n / 100 % 10 < 10 := Nat.mod_lt _ (by omega)
  have h3 : n / 10 % 10 < 10 := Nat.mod_lt _ (by omega)
  have h4 : n % 10 < 10 := Nat.mod_lt _ (by omega)
  simp only [pad4, List.cons_append, List.nil_append, parse4,
    isDigitC_digitChr h1, isDigitC_digitChr h2, isDigitC_digitChr h3, isDigitC_digitChr h4,
    Bool.and_self, if_true,
    digitVal_digitChr h1, digitVal_digitChr h2, digitVal_digitChr h3, digitVal_digitChr h4]
  have : 1000 * (n / 1000 % 10) + 100 * (n / 100 % 10) + 10 * (n / 10 % 10) + n % 10 = n := by
    omega
  rw [this]

theorem expectC_cons (c : Char) (r : List Char) : expectC c (c :: r) = some r := by
  simp [expectC]

theorem parseFrac_isoFrac {us : Nat} (h : us < 1000000) :
    parseFrac (isoFrac us) = some us := by
  by_cases h0 : us = 0
  · subst h0; rfl
  · have h1 : us / 100000 % 10 < 10 := Nat.mod_lt _ (by omega)
    have h2 : us / 10000 % 10 < 10 := Nat.mod_lt _ (by omega)
    have h3 : us / 1000 % 10 < 10 := Nat.mod_lt _ (by omega)
    have h4 : us / 100 % 10 < 10 := Nat.mod_lt _ (by omega)
    have h5 : us / 10 % 10 < 10 := Nat.mod_lt _ (by omega)
    have h6 : us % 10 < 10 := Nat.mod_lt _ (by omega)
    rw [isoFrac, if_neg h0]
    simp only [pad6, parseFrac,
      isDigitC_digitChr h1, isDigitC_digitChr h2, isDigitC_digitChr h3,
      isDigitC_digitChr h4, isDigitC_digitChr h5, isDigitC_digitChr h6,
      Bool.and_self, if_true,
      digitVal_digitChr h1, digitVal_digitChr h2, digitVal_digitChr h3,
      digitVal_digitChr h4, digitVal_digitChr h5, digitVal_digitChr h6]
    have : 100000 * (us / 100000 % 10) + 10000 * (us / 10000 % 10) + 1000 * (us / 1000 % 10) +
        100 * (us / 100 % 10) + 10 * (us / 10 % 10) + us % 10 = us := by omega
    rw [this]

/-- Parsing an `isoformat` string recovers the datetime exactly. -/
theorem fromisoformat_isoformat {d : DateTime} (h : d.Valid) :
    DateTime.fromisoformat d.isoformat = some d := by
  obtain ⟨h1, h2, h3, h4, h5, h6, h7, h8, h9, h10⟩ := h
  have htl : (DateTime.isoformat d).toList = isoChars d := rfl
  rw [DateTime.fromisoformat, htl, isoChars]
  simp only [bind, Option.bind_eq_bind,
    parse4_pad4 (show d.year < 10000 by omega),
    parse2_pad2 (show d.month < 100 by omega), parse2_pad2 (show d.day < 100 by omega),
    parse2_pad2 (show d.hour < 100 by omega), parse2_pad2 (show d.minute < 100 by omega),
    parse2_pad2 (show d.second < 100 by omega),
    parseFrac_isoFrac (show d.microsecond < 1000000 by omega),
    expectC_cons, Option.some_bind]
  rw [if_pos ⟨h1, h2, h3, h4, h5, h6, h7, h8, h9, h10⟩]

/-- C7: serializing a `ServerProcess` to its storage dictionary and
reading it back yields an identical record in every field; the
`started_at` timestamp round-trips exactly (hence at least to second
precision).  The hypotheses are the constructor's own invariants: a valid
datetime and a non-empty working directory (`cwd or os.getcwd()` never
stores `""`). -/
theorem C7_to_dict_roundtrip (s : ServerProcess) (now : DateTime) (curDir : String)
    (hv : s.started_at.Valid) (hc : s.cwd ≠ "") :
    ServerProcess.from_dict s.to_dict now curDir = some s := by
  obtain ⟨nm, cmd, pid, dt, lf, elf, cw⟩ := s
  simp only [ServerProcess.to_dict, ServerProcess.from_dict] at *
  rw [fromisoformat_isoformat hv]
  simp only [Option.map_some', Option.some.injEq]
  simp only [ServerProcess.init, Option.getD_some, pyOrStr]
  rw [if_neg hc]

/-- C7 witness: a concrete record (with microseconds in the timestamp)
round-trips exactly. -/
theorem C7_to_dict_roundtrip_witness :
    ServerProcess.from_dict
        (ServerProcess.to_dict ⟨"web", ["python", "app.py"], some 4242,
          ⟨2025, 6, 30, 23, 59, 58, 123456⟩, some "/logs/web.log",
          some "/logs/web_error.log", "/srv"⟩)
        ⟨2025, 7, 1, 0, 0, 0, 0⟩ "/" =
      some ⟨"web", ["python", "app.py"], some 4242,
        ⟨2025, 6, 30, 23, 59, 58, 123456⟩, some "/logs/web.log",
        some "/logs/web_error.log", "/srv"⟩ :=
  C7_to_dict_roundtrip _ _ _ (by decide) (by decide)

/-! ## Claim C9: `sanitize_name` output alphabet and idempotence -/

theorem mem_of_containsC {l : List Char} {c : Char} (h : l.contains c = true) : c ∈ l := by
  simpa using h

theorem containsC_of_mem {l : List Char} {c : Char} (h : c ∈ l) : l.contains c = true := by
  simpa using h

theorem sanitizeMap_safe (l : List Char) : ∀ c ∈ sanitizeMap l, safeChars.contains c = true := by
  intro c hc
  rcases List.mem_map.mp hc with ⟨a, _, ha⟩
  by_cases h : safeChars.contains a = true
  · rw [if_pos h] at ha; rw [← ha]; exact h
  · rw [if_neg h] at ha; rw [← ha]; decide

theorem sanitizeMap_of_safe : ∀ {l : List Char}, (∀ c ∈ l, safeChars.contains c = true) →
    sanitizeMap l = l := by
  intro l
  induction l with
  | nil => intro; rfl
  | cons a t ih =>
    intro h
    unfold sanitizeMap at ih ⊢
    rw [List.map_cons, if_pos (h a (List.mem_cons_self a t)),
      ih (fun c hc => h c (List.mem_cons_of_mem a hc))]

theorem takeWhile_all {p : Char → Bool} : ∀ {m : List Char}, (∀ c ∈ m, p c = true) →
    m.takeWhile p = m := by
  intro m
  induction m with
  | nil => intro; rfl
  | cons a t ih =>
    intro h
    rw [List.takeWhile_cons_of_pos (h a (List.mem_cons_self a t))]
    rw [ih (fun c hc => h c (List.mem_cons_of_mem a hc))]

theorem pyBasenameChars_of_no_slash {l : List Char} (h : ∀ c ∈ l, ¬ c = '/') :
    pyBasenameChars l = l := by
  unfold pyBasenameChars
  rw [takeWhile_all (by intro c hc; simpa using h c (List.mem_reverse.mp hc))]
  exact List.reverse_reverse l

theorem listIsPre_mem : ∀ {n h : List Char}, listIsPre n h = true → ∀ c ∈ n, c ∈ h := by
  intro n
  induction n with
  | nil => intro h _ c hc; simp at hc
  | cons a as ih =>
    intro h hp c hc
    cases h with
    | nil => simp [listIsPre] at hp
    | cons b bs =>
      simp only [listIsPre, Bool.and_eq_true, decide_eq_true_eq] at hp
      rcases List.mem_cons.mp hc with h1 | h2
      · rw [h1, hp.1]; exact List.mem_cons_self b bs
      · exact List.mem_cons_of_mem b (ih hp.2 c h2)

theorem endsWithExt_dot {l : List Char} (h : endsWithExt l = true) : '.' ∈ l := by
  unfold endsWithExt at h
  simp only [Bool.or_eq_true] at h
  have : '.' ∈ l.reverse := by
    rcases h with ((h1 | h2) | h3) | h4
    · exact listIsPre_mem h1 '.' (by decide)
    · exact listIsPre_mem h2 '.' (by decide)
    · exact listIsPre_mem h3 '.' (by decide)
    · exact listIsPre_mem h4 '.' (by decide)
  exact List.mem_reverse.mp this

/-- A character list of safe characters is a fixed point of the whole
sanitizing pipeline. -/
theorem sanitize_fixed {u : List Char} (hsafe : ∀ c ∈ u, safeChars.contains c = true) :
    sanitize_name (String.mk u) = some (String.mk u) := by
  have hmem : ∀ c ∈ u, c ∈ safeChars := fun c hc => mem_of_containsC (hsafe c hc)
  have hsp : u.contains ' ' = false := by
    cases hx : u.contains ' ' with
    | false => rfl
    | true =>
      have : (' ' : Char) ∈ safeChars := hmem _ (mem_of_containsC hx)
      exact absurd this (by decide)
  have hsl : ∀ c ∈ u, ¬ c = '/' := by
    intro c hc he
    have : ('/' : Char) ∈ safeChars := he ▸ hmem c hc
    exact absurd this (by decide)
  have hext : endsWithExt (pyBasenameChars u) = false := by
    rw [pyBasenameChars_of_no_slash hsl]
    cases hx : endsWithExt u with
    | false => rfl
    | true =>
      have : ('.' : Char) ∈ safeChars := hmem _ (endsWithExt_dot hx)
      exact absurd this (by decide)
  simp only [sanitize_name]
  have htl : (String.mk u).toList = u := rfl
  rw [htl, hsp]
  simp only [Bool.false_eq_true, if_false, Option.map_some']
  rw [pyBasenameChars_of_no_slash hsl] at hext ⊢
  rw [if_neg (by simp [hext])]
  rw [sanitizeMap_of_safe hsafe]

/-- C9 counterexample: `sanitize_name` is not total — on the input `" "`
(which contains a space but splits to nothing) `parts[0]` raises an
uncaught `IndexError`, so no value is produced at all and neither the
safe-alphabet property nor idempotence can hold at that input. -/
theorem C9_counterexample : sanitize_name " " = none := by decide

/-- C9 (amended): whenever `sanitize_name` returns a value, every
character of that value lies in `[A-Za-z0-9_-]`, and the function is
idempotent on it: sanitizing the result returns the result unchanged. -/
theorem C9_sanitize_idempotent (s t : String) (h : sanitize_name s = some t) :
    (∀ c ∈ t.toList, safeChars.contains c = true) ∧ sanitize_name t = some t := by
  have hform : ∃ u, t = String.mk (sanitizeMap u) := by
    simp only [sanitize_name] at h
    rcases Option.map_eq_some'.mp h with ⟨name1, _, hv⟩
    exact ⟨if endsWithExt (pyBasenameChars name1) then stemChars (pyBasenameChars name1)
      else pyBasenameChars name1, hv.symm⟩
  rcases hform with ⟨u, hu⟩
  have hsafe : ∀ c ∈ t.toList, safeChars.contains c = true := by
    rw [hu]
    exact sanitizeMap_safe u
  refine ⟨hsafe, ?_⟩
  have : String.mk t.toList = t := rfl
  rw [← this]
  exact sanitize_fixed hsafe

/-- C9 witness: sanitizing a path with extension gives `"run"`, whose
characters are all safe and which sanitizes to itself. -/
theorem C9_sanitize_idempotent_witness :
    (∀ c ∈ ("run" : String).toList, safeChars.contains c = true) ∧
      sanitize_name "run" = some "run" :=
  C9_sanitize_idempotent "/opt/app/run.sh" "run" (by decide)

/-! ## Claim C2: `start` on a live name is rejected without launching -/

/-- C2: when, after reconciliation, `name` is mapped to a record whose
process is confirmed live, `start` returns the already-running failure
naming `name` and the recorded pid, and the resulting world performed no
`Popen` (its launch log is the caller's). -/
theorem C2_start_already_running (w : World) (logDir : String) (command : List String)
    (n : String) (cwd? : Option String) (newPid : Option Nat) (excMsg : String)
    (osAfter : OsTable) (now : DateTime) (curDir : String) (srv : ServerProcess)
    (hn : ¬ n = "")
    (hfound : lookupA (loadState (cleanDead w now curDir) now curDir) n = some srv)
    (hlive : srv.is_running (cleanDead w now curDir).os = true) :
    DaemonManager.start w logDir command (some n) cwd? newPid excMsg osAfter now curDir =
      some (cleanDead w now curDir, false,
        "Server '" ++ n ++ "' is already running (PID: " ++ optPidRepr srv.pid ++ ")") ∧
    (cleanDead w now curDir).launches = w.launches := by
  constructor
  · simp only [DaemonManager.start, startName]
    rw [if_neg hn]
    dsimp only
    rw [hfound]
    dsimp only
    rw [if_pos hlive]
  · exact cleanDead_launches w now curDir

def sdLive : StoredDict :=
  ⟨"s1", ["sleep", "100"], some 5, "2024-01-02T03:04:05", none, none, some "/"⟩

def prSleep : OsProc := ⟨["sleep", "100"], false, false, none⟩

def srvLive : ServerProcess :=
  ⟨"s1", ["sleep", "100"], some 5, ⟨2024, 1, 2, 3, 4, 5, 0⟩, none, none, "/"⟩

def dtN : DateTime := ⟨2024, 1, 2, 4, 0, 0, 0⟩

def wC2 : World := ⟨some [("s1", sdLive)], [(5, prSleep)], 0, [], []⟩

/-- C2 witness: starting a second command under the live name `"s1"`
fails with the already-running message and pid 5, and launches nothing. -/
theorem C2_start_already_running_witness :
    DaemonManager.start wC2 "logs" ["./other"] (some "s1") none (some 9) "" [] dtN "/" =
      some (cleanDead wC2 dtN "/", false,
        "Server '" ++ "s1" ++ "' is already running (PID: " ++ optPidRepr srvLive.pid ++ ")") ∧
    (cleanDead wC2 dtN "/").launches = wC2.launches :=
  C2_start_already_running wC2 "logs" ["./other"] "s1" none (some 9) "" [] dtN "/" srvLive
    (by decide) (by decide) (by decide)

/-! ## Claim C3: stopping a stale name cleans up once, then NotFound -/

/-- C3: `stop` on a registered name whose process is dead removes the
stale record, saves, and reports the cleanup success (a message distinct
from the `"Stopped ..."` of an actual stop); calling `stop` again on the
resulting world reports not-found and changes nothing. -/
theorem C3_stop_stale_then_not_found (w : World) (n : String) (now : DateTime)
    (curDir : String) (srv : ServerProcess)
    (hfound : lookupA (loadState w now curDir) n = some srv)
    (hdead : srv.is_running w.os = false) :
    DaemonManager.stop w n false now curDir =
      (saveState w (eraseA (loadState w now curDir) n), true,
        "Server '" ++ n ++ "' is not running (cleaned up state)") ∧
    DaemonManager.stop (saveState w (eraseA (loadState w now curDir) n)) n false now curDir =
      (saveState w (eraseA (loadState w now curDir) n), false,
        "Server '" ++ n ++ "' not found") := by
  constructor
  · simp only [DaemonManager.stop]
    rw [hfound]
    dsimp only
    rw [if_pos hdead]
  · simp only [DaemonManager.stop]
    rw [lookupA_loadState_save_none w (eraseA (loadState w now curDir) n) n now curDir
      (eraseA_keys _ n)]

def wC3 : World := ⟨some [("s1", sdLive)], [], 0, [], []⟩

/-- C3 witness: the registry maps `"s1"` to a record whose pid 5 is gone
from the (empty) process table; the first stop cleans up with success,
the second reports not-found. -/
theorem C3_stop_stale_then_not_found_witness :
    DaemonManager.stop wC3 "s1" false dtN "/" =
      (saveState wC3 (eraseA (loadState wC3 dtN "/") "s1"), true,
        "Server '" ++ "s1" ++ "' is not running (cleaned up state)") ∧
    DaemonManager.stop (saveState wC3 (eraseA (loadState wC3 dtN "/") "s1")) "s1" false dtN "/" =
      (saveState wC3 (eraseA (loadState wC3 dtN "/") "s1"), false,
        "Server '" ++ "s1" ++ "' not found") :=
  C3_stop_stale_then_not_found wC3 "s1" dtN "/" srvLive (by decide) (by decide)

/-! ## Claim C4: immediate exit after launch rolls the record back -/

theorem is_running_false_of_gone {s : ServerProcess} {os : OsTable} {p : Nat}
    (hp : s.pid = some p) (h : lookupPid os p = none) : s.is_running os = false := by
  unfold ServerProcess.is_running
  rw [hp]
  dsimp only
  by_cases h0 : p = 0
  · rw [if_pos h0]
  · rw [if_neg h0, h]

/-- The launch body of `start`, when the process has vanished by
verification time: failure message naming the stderr log, and the saved
registry holds no entry under `name`. -/
theorem startLaunch_vanished (w1 : World) (logDir : String) (command : List String)
    (name : String) (cwd? : Option String) (servers : Registry) (p : Nat) (excMsg : String)
    (osAfter : OsTable) (now : DateTime) (curDir : String)
    (hgone : lookupPid osAfter p = none) :
    ∃ w', startLaunch w1 logDir command name cwd? servers (some p) excMsg osAfter now curDir =
        (w', false,
          "Process started but immediately exited. Check " ++
            (logDir ++ "/" ++ name ++ "_error.log")) ∧
      ∀ doc, w'.stateFile = some doc → ∀ e ∈ doc, ¬ e.1 = name := by
  simp only [startLaunch]
  rw [is_running_false_of_gone rfl hgone]
  simp only [Bool.false_eq_true, if_false]
  refine ⟨_, rfl, ?_⟩
  intro doc hdoc e he
  simp only [saveState, Option.some.injEq] at hdoc
  rw [← hdoc] at he
  rcases List.mem_map.mp he with ⟨e0, he0, hev⟩
  rw [← hev]
  exact eraseA_keys _ name e0 he0

/-- C4: if the launched process has already exited when the post-start
verification delay elapses, `start` reports the startup failure naming
the stderr log path, and the registry it leaves behind contains no entry
for the name. -/
theorem C4_startup_failed (w : World) (logDir : String) (command : List String)
    (n : String) (cwd? : Option String) (p : Nat) (excMsg : String) (osAfter : OsTable)
    (now : DateTime) (curDir : String)
    (hn : ¬ n = "")
    (hcol : ∀ srv, lookupA (loadState (cleanDead w now curDir) now curDir) n = some srv →
      srv.is_running (cleanDead w now curDir).os = false)
    (hgone : lookupPid osAfter p = none) :
    ∃ w', DaemonManager.start w logDir command (some n) cwd? (some p) excMsg osAfter now curDir =
        some (w', false,
          "Process started but immediately exited. Check " ++
            (logDir ++ "/" ++ n ++ "_error.log")) ∧
      ∀ doc, w'.stateFile = some doc → ∀ e ∈ doc, ¬ e.1 = n := by
  simp only [DaemonManager.start, startName]
  rw [if_neg hn]
  dsimp only
  cases hl : lookupA (loadState (cleanDead w now curDir) now curDir) n with
  | none =>
    dsimp only
    rcases startLaunch_vanished (cleanDead w now curDir) logDir command n cwd?
      (loadState (cleanDead w now curDir) now curDir) p excMsg osAfter now curDir hgone with
      ⟨w', hrun, hkeys⟩
    exact ⟨w', by rw [hrun], hkeys⟩
  | some srv =>
    dsimp only
    rw [if_neg (by rw [hcol srv hl]; simp)]
    rcases startLaunch_vanished (cleanDead w now curDir) logDir command n cwd?
      (loadState (cleanDead w now curDir) now curDir) p excMsg osAfter now curDir hgone with
      ⟨w', hrun, hkeys⟩
    exact ⟨w', by rw [hrun], hkeys⟩

def wC4 : World := ⟨none, [], 0, [], []⟩

/-- C4 witness: starting `["false"]` as `"s2"` from an empty registry,
with the process gone by verification time, reports the startup failure
naming `logs/s2_error.log` and leaves no `"s2"` entry. -/
theorem C4_startup_failed_witness :
    ∃ w', DaemonManager.start wC4 "logs" ["false"] (some "s2") none (some 7) "" [] dtN "/" =
        some (w', false,
          "Process started but immediately exited. Check " ++
            ("logs" ++ "/" ++ "s2" ++ "_error.log")) ∧
      ∀ doc, w'.stateFile = some doc → ∀ e ∈ doc, ¬ e.1 = "s2" :=
  C4_startup_failed wC4 "logs" ["false"] "s2" none 7 "" [] dtN "/" (by decide)
    (by
      intro srv h
      rw [show lookupA (loadState (cleanDead wC4 dtN "/") dtN "/") "s2" = none from rfl] at h
      cases h)
    (by decide)

/-! ## Claim C6: a failed stop aborts the restart before any start -/

/-- C6: when the stop phase of `restart` fails with a message that does
not mention "not running", `restart` returns that failure (wrapped) and
never reaches `start`: the resulting world is the post-stop world and no
process launch happened. -/
theorem C6_restart_aborts (w : World) (logDir : String) (n : String) (newPid : Option Nat)
    (excMsg : String) (osAfter : OsTable) (now : DateTime) (curDir : String)
    (server : ServerProcess) (w1 : World) (msg : String)
    (hfound : lookupA (loadState w now curDir) n = some server)
    (hstop : DaemonManager.stop w n false now curDir = (w1, false, msg))
    (hmsg : strContains msg "not running" = false) :
    DaemonManager.restart w logDir n newPid excMsg osAfter now curDir =
      some (w1, false, "Failed to stop server: " ++ msg) ∧
    w1.launches = w.launches := by
  constructor
  · simp only [DaemonManager.restart]
    rw [hfound]
    dsimp only
    rw [hstop]
    dsimp only
    rw [if_pos ⟨rfl, hmsg⟩]
  · have h := stop_launches w n false now curDir
    rw [hstop] at h
    exact h

def sdDenied : StoredDict :=
  ⟨"srv", ["srv"], some 3, "2024-01-02T03:04:05", none, none, some "/"⟩

def wC6 : World := ⟨some [("srv", sdDenied)], [(3, ⟨["srv", "run"], false, true, none⟩)], 0, [], []⟩

/-- C6 witness: pid 3 is live but signalling it is denied, so the stop
phase fails with an AccessDenied message; restart returns that failure
and performs no launch. -/
theorem C6_restart_aborts_witness :
    DaemonManager.restart wC6 "logs" "srv" (some 9) "" [] dtN "/" =
      some (wC6, false,
        "Failed to stop server: " ++ ("Failed to stop server: " ++ accessDeniedMsg 3)) ∧
    wC6.launches = wC6.launches :=
  C6_restart_aborts wC6 "logs" "srv" (some 9) "" [] dtN "/"
    ⟨"srv", ["srv"], some 3, ⟨2024, 1, 2, 3, 4, 5, 0⟩, none, none, "/"⟩ wC6
    ("Failed to stop server: " ++ accessDeniedMsg 3)
    (by decide) (by decide) (by decide)

/-! ## Claim C5: termination protocol -/

/-- The SIGTERM sweep succeeds when no targeted entry is denied; it only
shrinks the table and leaves untargeted pids untouched. -/
theorem termAll_spec : ∀ (ms : List Nat) (st : TreeState) (tbl0 : OsTable),
    (∀ e ∈ st.1, e ∈ tbl0) →
    (∀ e ∈ tbl0, e.1 ∈ ms → e.2.denied = false) →
    ∃ st', termAll st ms = .ok st' ∧ (∀ e ∈ st'.1, e ∈ st.1) ∧
      (∀ r, r ∉ ms → lookupPid st'.1 r = lookupPid st.1 r) := by
  intro ms
  induction ms with
  | nil => exact fun st _ _ _ => ⟨st, rfl, fun e he => he, fun r _ => rfl⟩
  | cons q qs ih =>
    intro st tbl0 hsub hden
    have hden' : ∀ e ∈ tbl0, e.1 ∈ qs → e.2.denied = false :=
      fun e he hm => hden e he (List.mem_cons_of_mem q hm)
    cases hq : lookupPid st.1 q with
    | none =>
      have hstep : termAll st (q :: qs) = termAll st qs := by
        simp only [termAll, termSuppress, hq]
      rcases ih st tbl0 hsub hden' with ⟨st', hok, hs, hp⟩
      exact ⟨st', by rw [hstep, hok], hs,
        fun r hr => hp r (fun hm => hr (List.mem_cons_of_mem q hm))⟩
    | some proc =>
      have hnd : proc.denied = false :=
        hden _ (hsub _ (lookupPid_mem hq)) (List.mem_cons_self q qs)
      have hstep : termAll st (q :: qs) =
          termAll (if proc.ignoresTerm then st.1 else erasePid st.1 q,
            st.2 ++ [(q, false)]) qs := by
        simp only [termAll, termSuppress, hq, hnd, Bool.false_eq_true, if_false]
      set st2 : TreeState :=
        (if proc.ignoresTerm then st.1 else erasePid st.1 q, st.2 ++ [(q, false)]) with hst2
      have hsub2 : ∀ e ∈ st2.1, e ∈ st.1 := by
        rw [hst2]
        by_cases hi : proc.ignoresTerm
        · rw [if_pos hi]; exact fun e he => he
        · rw [if_neg hi]; exact erasePid_sub
      have hpres2 : ∀ r, ¬ r = q → lookupPid st2.1 r = lookupPid st.1 r := by
        intro r hr
        rw [hst2]
        by_cases hi : proc.ignoresTerm
        · rw [if_pos hi]
        · rw [if_neg hi]; exact lookupPid_erase_ne st.1 hr
      rcases ih st2 tbl0 (fun e he => hsub _ (hsub2 e he)) hden' with ⟨st', hok, hs, hp⟩
      refine ⟨st', by rw [hstep, hok], fun e he => hsub2 _ (hs e he), ?_⟩
      intro r hr
      rw [hp r (fun hm => hr (List.mem_cons_of_mem q hm)),
        hpres2 r (fun he => hr (he ▸ List.mem_cons_self q qs))]

/-- The SIGKILL sweep succeeds when no targeted entry is denied and
removes every targeted pid from the table. -/
theorem killAll_spec : ∀ (ms : List Nat) (st : TreeState) (tbl0 : OsTable),
    (∀ e ∈ st.1, e ∈ tbl0) →
    (∀ e ∈ tbl0, e.1 ∈ ms → e.2.denied = false) →
    ∃ st', killAll st ms = .ok st' ∧ (∀ e ∈ st'.1, e ∈ st.1) ∧
      (∀ q ∈ ms, lookupPid st'.1 q = none) := by
  intro ms
  induction ms with
  | nil => exact fun st _ _ _ => ⟨st, rfl, fun e he => he, fun q hq => absurd hq (by simp)⟩
  | cons q qs ih =>
    intro st tbl0 hsub hden
    have hden' : ∀ e ∈ tbl0, e.1 ∈ qs → e.2.denied = false :=
      fun e he hm => hden e he (List.mem_cons_of_mem q hm)
    cases hq : lookupPid st.1 q with
    | none =>
      have hstep : killAll st (q :: qs) = killAll st qs := by
        simp only [killAll, killSuppress, hq]
      rcases ih st tbl0 hsub hden' with ⟨st', hok, hs, hp⟩
      refine ⟨st', by rw [hstep, hok], hs, ?_⟩
      intro r hr
      rcases List.mem_cons.mp hr with h1 | h2
      · exact h1 ▸ lookupPid_none_of_sub hs hq
      · exact hp r h2
    | some proc =>
      have hnd : proc.denied = false :=
        hden _ (hsub _ (lookupPid_mem hq)) (List.mem_cons_self q qs)
      have hstep : killAll st (q :: qs) =
          killAll (erasePid st.1 q, st.2 ++ [(q, true)]) qs := by
        simp only [killAll, killSuppress, hq, hnd, Bool.false_eq_true, if_false]
      rcases ih (erasePid st.1 q, st.2 ++ [(q, true)]) tbl0
        (fun e he => hsub _ (erasePid_sub e he)) hden' with ⟨st', hok, hs, hp⟩
      refine ⟨st', by rw [hstep, hok], fun e he => erasePid_sub _ (hs e he), ?_⟩
      intro r hr
      rcases List.mem_cons.mp hr with h1 | h2
      · exact h1 ▸ lookupPid_none_of_sub hs (lookupPid_erase_self st.1 q)
      · exact hp r h2

def wC5 : World :=
  ⟨some [("srv", ⟨"srv", ["sleepy"], some 1, "2024-01-02T03:04:05", none, none, some "/"⟩)],
    [(1, ⟨["sleepy", "9"], false, false, none⟩), (2, ⟨["child"], false, false, some 1⟩)],
    0, [], []⟩

/-- C5 counterexample: `DaemonManager.stop` (the cited `stop`) never
signals descendants.  Here pid 2 is a child of the root pid 1; the stop
succeeds, yet afterwards pid 2 is still in the process table and the only
signal ever delivered was the root's SIGTERM — the descendant neither
received a terminal signal nor is gone. -/
theorem C5_counterexample :
    (DaemonManager.stop wC5 "srv" false dtN "/").2.1 = true ∧
    lookupPid (DaemonManager.stop wC5 "srv" false dtN "/").1.os 2 =
      some ⟨["child"], false, false, some 1⟩ ∧
    (DaemonManager.stop wC5 "srv" false dtN "/").1.sigs = [(1, false)] := by
  decide

/-- C5 (amended): the tree-wide escalation protocol the claim describes
is the one `kill_process_tree` implements: it snapshots the descendants,
SIGTERMs each of them and then the root, waits up to `timeout`, and
SIGKILLs any member still alive — so, absent permission errors, it
returns success and every snapshot member is gone afterwards.
`DaemonManager.stop` applies the graceful-then-forced escalation (with a
fixed 10-second wait, not a `timeout` parameter) to the root process
only; with `force = true` it skips the graceful phase entirely and the
one signal delivered is an immediate SIGKILL of the root. -/
theorem C5_escalation_amended :
    (∀ (tbl : OsTable) (pid timeout : Nat) (root : OsProc),
      lookupPid tbl pid = some root →
      (∀ e ∈ tbl, e.1 ∈ descendants tbl pid ++ [pid] → e.2.denied = false) →
      pid ∉ descendants tbl pid →
      (kill_process_tree tbl pid timeout).2.2 = true ∧
        ∀ q ∈ descendants tbl pid ++ [pid],
          lookupPid (kill_process_tree tbl pid timeout).1 q = none) ∧
    (∀ (w : World) (name : String) (now : DateTime) (curDir : String)
        (server : ServerProcess) (p : Nat) (proc : OsProc),
      lookupA (loadState w now curDir) name = some server →
      server.is_running w.os = true → server.pid = some p →
      lookupPid w.os p = some proc → proc.denied = false →
      (DaemonManager.stop w name true now curDir).2.1 = true ∧
        (DaemonManager.stop w name true now curDir).1.os = erasePid w.os p ∧
        (DaemonManager.stop w name true now curDir).1.sigs = w.sigs ++ [(p, true)]) := by
  constructor
  · intro tbl pid timeout root hroot hnden hnotself
    have hchild : ∀ e ∈ tbl, e.1 ∈ descendants tbl pid → e.2.denied = false :=
      fun e he hm => hnden e he (List.mem_append_left _ hm)
    rcases termAll_spec (descendants tbl pid) (tbl, []) tbl (fun e he => he) hchild with
      ⟨st1, h1ok, h1sub, h1pres⟩
    have hlk1 : lookupPid st1.1 pid = some root := by
      rw [h1pres pid hnotself]; exact hroot
    have hndroot : root.denied = false :=
      hnden _ (lookupPid_mem hroot) (List.mem_append_right _ (List.mem_cons_self pid []))
    have htr : termRoot st1 pid =
        .ok (if root.ignoresTerm then st1.1 else erasePid st1.1 pid,
          st1.2 ++ [(pid, false)]) := by
      simp only [termRoot, hlk1, hndroot, Bool.false_eq_true, if_false]
    set st2 : TreeState :=
      (if root.ignoresTerm then st1.1 else erasePid st1.1 pid, st1.2 ++ [(pid, false)])
      with hst2
    have hsub2 : ∀ e ∈ st2.1, e ∈ tbl := by
      rw [hst2]
      by_cases hi : root.ignoresTerm
      · rw [if_pos hi]; exact fun e he => h1sub e he
      · rw [if_neg hi]; exact fun e he => h1sub _ (erasePid_sub e he)
    rcases killAll_spec
        ((descendants tbl pid ++ [pid]).filter (fun q => (lookupPid st2.1 q).isSome))
        st2 tbl hsub2
        (fun e he hm => hnden e he (List.mem_of_mem_filter hm)) with
      ⟨st3, h3ok, h3sub, h3none⟩
    have hrun : kill_process_tree tbl pid timeout = (st3.1, st3.2, true) := by
      simp only [kill_process_tree, hroot, h1ok, htr, ← hst2, h3ok]
    rw [hrun]
    refine ⟨rfl, ?_⟩
    intro q hq
    by_cases hqa : (lookupPid st2.1 q).isSome
    · exact h3none q (List.mem_filter.mpr ⟨hq, by simpa using hqa⟩)
    · have hnone : lookupPid st2.1 q = none := by
        cases hx : lookupPid st2.1 q with
        | none => rfl
        | some v => rw [hx] at hqa; simp at hqa
      exact lookupPid_none_of_sub h3sub hnone
  · intro w name now curDir server p proc hfound hlive hpid hlk hnd
    have hstop : DaemonManager.stop w name true now curDir =
        (saveState { w with os := erasePid w.os p, sigs := w.sigs ++ [(p, true)] }
          (eraseA (loadState w now curDir) name), true, "Stopped " ++ name) := by
      simp only [DaemonManager.stop, hfound, hlive, hpid, hlk, hnd, Option.getD_some,
        Bool.true_eq_false, Bool.false_eq_true, if_false, if_true, ite_true, ite_false]
    rw [hstop]
    exact ⟨rfl, rfl, rfl⟩

/-- C5 witness: a root (pid 1) that ignores SIGTERM with a child (pid 2)
that also ignores it — `kill_process_tree` reports success and both are
gone; and a forced `DaemonManager.stop` kills the live root immediately
with a single SIGKILL. -/
theorem C5_escalation_amended_witness :
    ((kill_process_tree
        [(1, ⟨["stubborn"], true, false, none⟩), (2, ⟨["child"], true, false, some 1⟩)]
        1 5).2.2 = true ∧
      ∀ q ∈ descendants
          [(1, ⟨["stubborn"], true, false, none⟩), (2, ⟨["child"], true, false, some 1⟩)]
          1 ++ [1],
        lookupPid (kill_process_tree
          [(1, ⟨["stubborn"], true, false, none⟩), (2, ⟨["child"], true, false, some 1⟩)]
          1 5).1 q = none) ∧
    ((DaemonManager.stop wC5 "srv" true dtN "/").2.1 = true ∧
      (DaemonManager.stop wC5 "srv" true dtN "/").1.os = erasePid wC5.os 1 ∧
      (DaemonManager.stop wC5 "srv" true dtN "/").1.sigs = wC5.sigs ++ [(1, true)]) :=
  ⟨C5_escalation_amended.1
      [(1, ⟨["stubborn"], true, false, none⟩), (2, ⟨["child"], true, false, some 1⟩)]
      1 5 ⟨["stubborn"], true, false, none⟩ (by decide) (by decide) (by decide),
    C5_escalation_amended.2 wC5 "srv" dtN "/"
      ⟨"srv", ["sleepy"], some 1, ⟨2024, 1, 2, 3, 4, 5, 0⟩, none, none, "/"⟩ 1
      ⟨["sleepy", "9"], false, false, none⟩
      (by decide) (by decide) (by decide) (by decide) (by decide)⟩
